import Mathlib

/-!
Verification of the ayvajs motion engine specification.

A shallow embedding of `src/ayva.js` (class `Ayva`): the axis registry,
`configureAxis` / `#validateAxisConfig`, the movement validator
`#validateMovements`, the planner `#createValueProviders`, the tick executor
(`#executeProviders`, `#executeProvider`, `#tcode`), and the admission queue
implicit in `move` / `stop` / `#performMovements`.

JavaScript numbers are modelled as exact rationals (`ℚ`); the JS values a
movement/provider can produce are modelled by `JSVal` (finite number, boolean,
`null`, `undefined`, and a catch-all `other` covering `NaN`/`Infinity`/strings,
none of which satisfy `Number.isFinite`).

The helper functions imported from `./util.js` (`round`, `clamp`, `has`,
`fail`) are not part of the sources; they are modelled from the spec (see the
doc comments below).  `has` corresponds to field presence, which the embedding
expresses with `Option`; `fail` corresponds to the error results.
-/

namespace Ayva

/-- `Math.round` of JavaScript on an exact rational: round to the nearest
integer, ties toward positive infinity. -/
def jsRound (q : ℚ) : ℤ := ⌊q + 1/2⌋

/-- Modelled from the spec: `round(value, precision)` from the missing
`util.js` — "displacement-derived numeric results round to 10 decimal places",
"rounded to 3 decimals", and `stepCount = round(duration × frequency)`:
round to `d` decimal places (`Math.round(value·10^d)/10^d`). -/
def round (q : ℚ) (d : ℕ) : ℚ := (jsRound (q * 10 ^ d) : ℚ) / 10 ^ d

/-- Modelled from the spec: `clamp(value, min, max)` from the missing
`util.js` — restrict a value to the interval `[lo, hi]`. -/
def clamp (q lo hi : ℚ) : ℚ := min (max q lo) hi

/-- A JavaScript value as producible by movement fields and value providers.
`other` stands for any value that is neither a finite number, a boolean, nor
`null`/`undefined` (e.g. `NaN`, `Infinity`, strings). -/
inductive JSVal where
  | num (q : ℚ)
  | bool (b : Bool)
  | nullv
  | undef
  | other
deriving DecidableEq, Repr

namespace JSVal

/-- `Number.isFinite(v)`: true exactly on finite numbers (no coercion). -/
def isFiniteNum : JSVal → Bool
  | num _ => true
  | _ => false

/-- `typeof v === 'boolean'`. -/
def isBool : JSVal → Bool
  | bool _ => true
  | _ => false

/-- `v === null || v === undefined` (the "no movement" sentinel). -/
def isNullish : JSVal → Bool
  | nullv => true
  | undef => true
  | _ => false

/-- Numeric coercion as performed by JS arithmetic (`-`, `*`) on the values
that can actually reach the planner/executor arithmetic: booleans coerce to
0/1.  `null` coerces to 0; `undefined` and `other` would give `NaN`, which the
validated call paths never feed into this function — 0 is returned there to
keep the model total. -/
def toNum : JSVal → ℚ
  | num q => q
  | bool b => if b then 1 else 0
  | nullv => 0
  | undef => 0
  | other => 0

end JSVal

/-! ## Axis registry (`#axes`, `configureAxis`, `#validateAxisConfig`) -/

/-- A stored axis configuration (`resultConfig` in `#validateAxisConfig`):
the input fields plus defaulted `min`/`max` and the live `value`. -/
structure AxisCfg where
  name : String
  type : String
  aliasName : Option String  -- `alias` (a Lean keyword)
  min : ℚ
  max : ℚ
  value : JSVal
deriving DecidableEq, Repr

/-- The axis registry `this.#axes`: a property map from names and aliases to
configurations. -/
def Registry := String → Option AxisCfg

/-- `this.#axes[key] = cfg`. -/
def Registry.set (r : Registry) (key : String) (cfg : AxisCfg) : Registry :=
  fun s => if s = key then some cfg else r s

/-- `delete this.#axes[key]`. -/
def Registry.del (r : Registry) (key : String) : Registry :=
  fun s => if s = key then none else r s

/-- The empty registry (fresh `Ayva` instance). -/
def Registry.empty : Registry := fun _ => none

/-- The axis-configuration argument of `configureAxis`.  `name` and `type`
are modelled as present strings (the runtime checks for missing fields and
non-string types cannot fire in the typed model); `alias`, `min` and `max`
are optional exactly as in the source. -/
structure AxisConfigInput where
  name : String
  type : String
  aliasName : Option String := none  -- `alias` (a Lean keyword)
  min : Option ℚ := none
  max : Option ℚ := none
deriving DecidableEq, Repr

/-- `#validateAxisConfig(axisConfig)`: range-checks `min`/`max` when present,
checks the `type` variant, then builds `resultConfig` with the JS falsy
defaults `axisConfig.max || 1` and `axisConfig.min || 0` (an explicit `0` is
falsy and is replaced by the default), and finally checks
`max === min || min > max` on the defaulted values.  Errors are the thrown
configuration errors. -/
def validateAxisConfig (cfg : AxisConfigInput) : Except String AxisCfg :=
  -- `min`/`max` must be finite numbers in [0,1] when present.
  let badRange : Option ℚ → Bool
    | some v => v < 0 || 1 < v
    | none => false
  if badRange cfg.min || badRange cfg.max then
    .error "Invalid configuration parameter(s): min/max out of range"
  else if !((["linear", "rotation", "auxiliary", "boolean"] : List String).contains cfg.type) then
    .error "Invalid type. Must be linear, rotation, auxiliary, or boolean."
  else
    -- `max: axisConfig.max || 1, min: axisConfig.min || 0` (0 is falsy).
    let maxD : ℚ := match cfg.max with
      | some m => if m = 0 then 1 else m
      | none => 1
    let minD : ℚ := match cfg.min with
      | some m => if m = 0 then 0 else m
      | none => 0
    let result : AxisCfg :=
      { name := cfg.name, type := cfg.type, aliasName := cfg.aliasName
        min := minD, max := maxD
        value := if cfg.type = "boolean" then .bool false else .num (1/2) }
    if result.max = result.min || result.min > result.max then
      .error "Invalid configuration parameter(s): max/min inconsistent"
    else
      .ok result

/-- The registry as mutated by `configureAxis` just before the alias branch:
the old value is preserved, the old config's alias entry is deleted, and the
name entry is (re)bound.  (In the source these mutations happen before the
alias-collision check throws.) -/
def configureAxisMid (r : Registry) (cfg : AxisConfigInput) (result : AxisCfg) :
    Registry × AxisCfg :=
  match r cfg.name with
  | some oldConfig =>
    let result := { result with value := oldConfig.value }
    let r := match oldConfig.aliasName with
      | some al => r.del al      -- `delete this.#axes[oldConfig.alias]`
      | none => r                -- deleting an `undefined` key is a no-op
    ((r.set cfg.name result), result)
  | none => ((r.set cfg.name result), result)

/-- `configureAxis(axisConfig)`.  Returns the registry after the call together
with the raised error, if any: the JS object is mutated in place, so the
mutations made before a throw persist. -/
def configureAxis (r : Registry) (cfg : AxisConfigInput) :
    Registry × Option String :=
  match validateAxisConfig cfg with
  | .error e => (r, some e)
  | .ok result =>
    let (r, result) := configureAxisMid r cfg result
    match cfg.aliasName with
    | some al =>
      if al = "" then (r, none)  -- `if (axisConfig.alias)`: "" is falsy
      else if (r al).isSome then
        (r, some ("Alias already refers to another axis: " ++ al))
      else (r.set al result, none)
    | none => (r, none)

/-! ## Tick executor (`#tcode`, `#executeProvider`, `#executeProviders`) -/

/-- `String.prototype.padStart(3, '0')` on the decimal representation of a
natural number. -/
def pad3 (n : ℕ) : String :=
  let s := toString n
  if s.length < 3 then String.mk (List.replicate (3 - s.length) '0') ++ s else s

/-- `#tcode(axis, value)`: booleans map to `999`/`000`; numbers are scaled
into the axis's `[min, max]` range via `(max - min) * value + min`, rounded to
3 decimals, multiplied by 1000, clamped to `[0, 999]` and zero-padded to three
digits.  The token is prefixed with the axis's machine `name`.  In the exact
model `round(s, 3) * 1000` is the integer `jsRound (s * 1000)`, which the
clamp confines to `[0, 999] ⊆ ℕ`.  The axis is assumed present in the
registry (the executor only reaches axes of a validated movement); a missing
axis yields an empty token to keep the model total (the source would throw a
`TypeError` there). -/
def tcode (r : Registry) (axis : String) (value : JSVal) : String :=
  match r axis with
  | none => ""
  | some cfg =>
    let valueText :=
      match value with
      | .bool b => if b then "999" else "000"
      | v =>
        let scaledValue := (cfg.max - cfg.min) * v.toNum + cfg.min
        pad3 ((min (max (jsRound (scaledValue * 1000)) 0) 999).toNat)
    cfg.name ++ valueText

/-- The context object a value provider receives (`#executeProvider`):
`{ ...parameters, time, index, period, frequency, currentValue, x }`.
`fromValue` is the JS `from` field (a Lean keyword). -/
structure Ctx where
  axis : String
  fromValue : JSVal
  toVal : Option JSVal  -- `to` (a Lean keyword)
  speed : Option ℚ
  duration : Option ℚ
  stepCount : Option ℤ
  time : ℚ
  index : ℕ
  period : ℚ
  frequency : ℚ
  currentValue : JSVal
  x : ℚ

/-- The resolved parameters attached to a value provider
(`provider.parameters`, the mutated movement object of
`#createValueProviders`). -/
structure Params where
  axis : String
  fromValue : JSVal
  toVal : Option JSVal := none  -- `to` (a Lean keyword)
  speed : Option ℚ := none
  duration : Option ℚ := none
  direction : Option ℤ := none
  stepCount : Option ℤ := none
  period : ℚ
deriving DecidableEq, Repr

/-- A value provider with its parameters (`{ valueProvider, parameters }`). -/
structure Provider where
  valueProvider : Ctx → JSVal
  parameters : Params

/-- The global tick state the executor reads: the frequency and its period. -/
structure Engine where
  frequency : ℚ := 50
  defaultAxis : Option String := none
deriving Repr

def Engine.period (a : Engine) : ℚ := 1 / a.frequency

/-- `#executeProvider(provider, index)`: build the context, call the provider,
warn on invalid values (warning not modelled), and return the axis together
with the next value — a finite number is clamped to `[0,1]` after rounding to
10 decimals, anything else is passed through unchanged. -/
def executeProvider (a : Engine) (r : Registry) (p : Provider) (index : ℕ) :
    String × JSVal :=
  let time := index * a.period
  let params := p.parameters
  let currentValue : JSVal := match r params.axis with
    | some cfg => cfg.value
    | none => .undef
  let nextValue := p.valueProvider
    { axis := params.axis, fromValue := params.fromValue, toVal := params.toVal
      speed := params.speed, duration := params.duration
      stepCount := params.stepCount, time, index, period := a.period
      frequency := a.frequency, currentValue
      x := (index + 1 : ℚ) / (params.stepCount.getD 0 : ℚ) }
  ( params.axis,
    if nextValue.isFiniteNum then
      .num (clamp (round nextValue.toNum 10) 0 1)
    else nextValue )

/-- `tcodes.join(' ')`: the tokens of one tick joined into a single line. -/
def joinTokens : List String → String
  | [] => ""
  | [t] => t
  | t :: ts => t ++ " " ++ joinTokens ts

/-- `this.#axes[axis].value = value`, one step of the commit loop of
`#executeProviders`.  A missing axis would be a `TypeError` in the source;
the model leaves the registry unchanged there (unreachable for providers
built from validated movements). -/
def commitValue (acc : Registry) (av : String × JSVal) : Registry :=
  match acc av.1 with
  | some cfg => acc.set av.1 { cfg with value := av.2 }
  | none => acc

/-- `#executeProviders(providers, index)`: evaluate every provider, keep the
results that are finite numbers or booleans, encode them (numbers are
pre-scaled by `0.999` and rounded to 3 decimals first), join the tokens into
one written line, and commit each surviving value into the registry.  Returns
the updated registry and the written line (`none` when no token survived, in
which case nothing is written and nothing is committed).  It is assumed that
at least one output device is registered (otherwise `write` would throw).
In the source name and alias keys share one mutable config object, so a
commit is visible under both keys; the functional model updates the entry
under the commanded key, and the value claims are stated per key. -/
def executeProviders (a : Engine) (r : Registry) (providers : List Provider)
    (index : ℕ) : Registry × Option String :=
  let axisValues := (providers.map (fun p => executeProvider a r p index)).filter
    (fun av => av.2.isFiniteNum || av.2.isBool)
  let tcodes := axisValues.map (fun av =>
    tcode r av.1 (match av.2 with
      | .num q => .num (round (q * (999/1000)) 3)
      | v => v))
  if tcodes.length ≠ 0 then
    (axisValues.foldl commitValue r, some (joinTokens tcodes ++ "\n"))
  else (r, none)

/-! ## Movement descriptors and `#validateMovements` -/

/-- A movement descriptor as passed to `move(...)`.  Absent JS properties are
`none`.  `speed` and `duration` are modelled as rationals when present (the
`Number.isFinite` checks of the validator cannot fail on them in the model);
`to` can be a number or a boolean (`JSVal`); `value` is a provider function. -/
structure Movement where
  axis : Option String := none
  toVal : Option JSVal := none  -- `to` (a Lean keyword)
  speed : Option ℚ := none
  duration : Option ℚ := none
  value : Option (Ctx → JSVal) := none
  sync : Option String := none

/-- `movement.axis || this.defaultAxis` (an empty string is falsy). -/
def resolveAxis (defaultAxis : Option String) (m : Movement) : Option String :=
  match m.axis with
  | some s => if s = "" then defaultAxis else some s
  | none => defaultAxis

/-- Result of `#validateMovements`: success, a thrown validation error, or
fuel exhaustion of the sync-chain walk (modelling non-termination of the
`while` loop). -/
inductive VResult where
  | ok
  | error (msg : String)
  | outOfFuel
deriving DecidableEq, Repr

/-- Accumulator of the first validation pass: `movementMap`,
`atLeastOneDuration` and `atLeastOneNonBoolean`. -/
structure P1State where
  map : List (String × Movement)
  oneDur : Bool
  oneNonBool : Bool

/-- `!s.trim()`: the string is empty or all whitespace.  (`String.trim`
itself does not reduce definitionally, so the test is phrased over the
character list.) -/
def strBlank (s : String) : Bool := s.data.all (fun c => c.isWhitespace)

/-- `movement.to` is invalid: for boolean axes `to` must be a boolean,
otherwise a finite number inside `[0, 1]`. -/
def invalidTo (cfg : AxisCfg) (tv : JSVal) : Bool :=
  if cfg.type = "boolean" then !tv.isBool
  else
    match tv with
    | .num q => decide (q < 0) || decide (1 < q)
    | _ => true    -- `!Number.isFinite(movement.to)`

/-- The per-movement checks of the first `movements.forEach` in
`#validateMovements`, in source order.  The unknown-resolved-axis case (only
possible through a bad default axis) is a `TypeError` in the source at the
first `this.#axes[axis].type` read; the model aborts there as well, slightly
earlier in the check order. -/
def checkMovement (r : Registry) (defaultAxis : Option String) (st : P1State)
    (m : Movement) : Except String P1State :=
  match resolveAxis defaultAxis m with
  | none => .error "No default axis configured. Must specify an axis for each movement."
  | some axis =>
    if axis = "" then  -- `if (!axis)`
      .error "No default axis configured. Must specify an axis for each movement."
    -- `if (has(movement, 'axis'))`: non-blank string naming a known axis
    else if (match m.axis with
             | some s => strBlank s || (r s).isNone
             | none => false) then
      .error "Invalid value for parameter 'axis'"
    else
      match r axis with
      | none => .error "TypeError: unknown resolved axis"
      | some cfg =>
        if (match m.toVal with
            | some tv => invalidTo cfg tv
            | none => false) then
          .error "Invalid value for parameter 'to'"
        else if m.toVal.isNone && m.value.isNone then
          .error "Must provide a 'to' property or 'value' function."
        else if m.speed.isSome && m.duration.isSome then
          .error "Cannot supply both speed and duration."
        else if (match m.speed with
                 | some sp => decide (sp ≤ 0)
                 | none => false) then
          .error "Invalid value for parameter 'speed'"
        else if (match m.duration with
                 | some d => decide (d ≤ 0)
                 | none => false) then
          .error "Invalid value for parameter 'duration'"
        else if m.speed.isSome && m.toVal.isNone then
          .error "Must provide a target position when specifying speed."
        -- `'value' must be a function`: holds by typing in the model
        else if (match m.sync with
                 | some sy => strBlank sy
                 | none => false) then
          .error "Invalid value for parameter 'sync'"
        else if m.sync.isSome && (m.speed.isSome || m.duration.isSome) then
          .error "Cannot specify a speed or duration when sync property is present"
        else if cfg.type == "boolean" && m.speed.isSome then
          .error ("Cannot specify speed for boolean axes: " ++ axis)
        else if cfg.type == "boolean" && (m.duration.isSome && m.toVal.isSome && m.value.isNone) then
          .error "Cannot specify a duration for a boolean axis movement with constant value."
        else if (st.map.lookup axis).isSome then
          .error ("Duplicate axis movement: " ++ axis)
        else
          .ok { map := st.map ++ [(axis, m)]
                oneDur := st.oneDur || m.speed.isSome || m.duration.isSome
                oneNonBool := st.oneNonBool || cfg.type != "boolean" }

/-- The first `movements.forEach` of `#validateMovements` (`fail` throws, so
the first error aborts the whole pass). -/
def validatePass1 (r : Registry) (defaultAxis : Option String) :
    List Movement → P1State → Except String P1State
  | [], st => .ok st
  | m :: ms, st =>
    match checkMovement r defaultAxis st m with
    | .error e => .error e
    | .ok st' => validatePass1 r defaultAxis ms st'

/-- The `while (has(syncMovement, 'sync'))` walk of the second
`movements.forEach`, with fuel: each loop iteration consumes one unit, and
`outOfFuel` for every fuel value models the loop never terminating.  `origin`
is `originalMovementAxis = movement.axis` (the raw property: `undefined` when
the movement relies on the default axis); the comparison
`syncMovement.sync === originalMovementAxis` is `Option` equality, so two
absent values compare equal exactly as two `undefined`s do. -/
def syncWalk (map : List (String × Movement)) (origin : Option String) :
    Movement → ℕ → VResult
  | sm, fuel =>
    match sm.sync with
    | none => .ok
    | some sy =>
      match fuel with
      | 0 => .outOfFuel
      | fuel + 1 =>
        match map.lookup sy with
        | none => .error "Cannot sync with axis not specified in movement"
        | some m2 =>
          if m2.sync == origin then .error "Sync axes cannot form a cycle."
          else syncWalk map origin m2 fuel

/-- The second `movements.forEach` of `#validateMovements`: walk every
movement's sync chain. -/
def validatePass2 (map : List (String × Movement)) :
    List Movement → ℕ → VResult
  | [], _ => .ok
  | m :: ms, fuel =>
    match syncWalk map m.axis m fuel with
    | .ok => validatePass2 map ms fuel
    | res => res

/-- `#validateMovements(movements)`. -/
def validateMovements (r : Registry) (defaultAxis : Option String)
    (movements : List Movement) (fuel : ℕ) : VResult :=
  if movements.isEmpty then .error "Must supply at least one movement."
  else
    match validatePass1 r defaultAxis movements ⟨[], false, false⟩ with
    | .error e => .error e
    | .ok st =>
      match validatePass2 st.map movements fuel with
      | .ok =>
        if !st.oneDur && st.oneNonBool then
          .error "At least one movement must have a speed or duration."
        else .ok
      | res => res

/-! ## Movement planner (`#createValueProviders`) -/

/-- A `computedMovement` of `#createValueProviders`: the movement spread plus
the resolved `axis`, `from`, `period` and, as the passes progress, derived
`speed`/`duration`/`direction`/`stepCount`. -/
structure PMove where
  axis : String
  fromValue : JSVal  -- `from` (a Lean keyword)
  toVal : Option JSVal := none  -- `to` (a Lean keyword)
  speed : Option ℚ := none
  duration : Option ℚ := none
  direction : Option ℤ := none
  stepCount : Option ℤ := none
  period : ℚ
  sync : Option String := none
  value : Option (Ctx → JSVal) := none

/-- The parameters kept on the provider: the computed movement after
`delete movement.sync; delete movement.value`. -/
def PMove.params (m : PMove) : Params :=
  { axis := m.axis, fromValue := m.fromValue, toVal := m.toVal
    speed := m.speed, duration := m.duration, direction := m.direction
    stepCount := m.stepCount, period := m.period }

/-- First pass of `#createValueProviders`: resolve the axis, record `from`
(the axis's current live value, raw), and when `to` is present derive the
missing one of `speed`/`duration` (rounded to 10 decimals) and the
`direction` sign.  JS arithmetic (`movement.to - result.from`) coerces
booleans to 0/1 (`JSVal.toNum`).  An unknown axis (impossible for a validated
batch) contributes `from = 0`. -/
def plannerFirstPass (a : Engine) (r : Registry) (m : Movement) : PMove :=
  let axis := (resolveAxis a.defaultAxis m).getD ""
  let fromVal : JSVal := match r axis with
    | some cfg => cfg.value
    | none => .undef
  match m.toVal with
  | some tv =>
    let distance := tv.toNum - fromVal.toNum
    let absoluteDistance := |distance|
    let (speed, duration) :=
      match m.duration with
      | some dur => (some (round (absoluteDistance / dur) 10), some dur)
      | none =>
        match m.speed with
        | some sp => (some sp, some (round (absoluteDistance / sp) 10))
        | none => (none, none)
    let direction : ℤ := if distance > 0 then 1 else if distance < 0 then -1 else 0
    { axis, fromValue := fromVal, toVal := m.toVal, speed, duration
      direction := some direction, period := a.period
      sync := m.sync, value := m.value }
  | none =>
    { axis, fromValue := fromVal, speed := m.speed, duration := m.duration
      period := a.period, sync := m.sync, value := m.value }

/-- `maxDuration`: the maximum over all first-pass durations (starting at 0). -/
def plannerMaxDuration (l : List PMove) : ℚ :=
  l.foldl (fun mx pm =>
    match pm.duration with
    | some d => if d > mx then d else mx
    | none => mx) 0

/-- The `while (has(syncMovement, 'sync'))` walk of the planner's second pass
(`movementsByAxis` lookups are over the current, partially mutated list).
`none` models both a missing lookup (a `TypeError` in the source) and a
non-terminating chain (fuel exhaustion); neither occurs for validated
batches. -/
def plannerWalk (l : List PMove) : PMove → ℕ → Option PMove
  | sm, fuel =>
    match sm.sync with
    | none => some sm
    | some sy =>
      match fuel with
      | 0 => none
      | fuel + 1 =>
        match l.find? (fun p => p.axis == sy) with
        | some m2 => plannerWalk l m2 fuel
        | none => none

/-- `movement.stepCount = round(movement.duration * this.#frequency)`
(when a duration is present). -/
def setStepCount (a : Engine) (m : PMove) : PMove :=
  match m.duration with
  | some d => { m with stepCount := some (jsRound (d * a.frequency)) }
  | none => m

/-- One iteration of the planner's second `forEach`, operating on element `i`
of the current list (the source mutates the movement objects in place, so
later iterations and `movementsByAxis` lookups observe earlier mutations). -/
def plannerSecondStep (a : Engine) (r : Registry) (maxDuration : ℚ) (fuel : ℕ)
    (l : List PMove) (i : ℕ) : Option (List PMove) :=
  match l.get? i with
  | none => some l
  | some m =>
    if m.sync.isSome then
      match plannerWalk l m fuel with
      | none => none
      | some target =>
        -- `movement.duration = syncMovement.duration || maxDuration` (0 is falsy)
        let dur := match target.duration with
          | some d => if d = 0 then maxDuration else d
          | none => maxDuration
        let m := { m with duration := some dur }
        let m := match m.toVal with
          | some tv =>
            { m with speed := some (round (|tv.toNum - m.fromValue.toNum| / dur) 10) }
          | none => m
        some (l.set i (setStepCount a m))
    else if m.duration.isNone then
      -- `!has(movement,'duration') && this.#axes[movement.axis].type !== 'boolean'`
      match r m.axis with
      | none => none  -- a TypeError in the source (unknown axis)
      | some cfg =>
        let m := if cfg.type ≠ "boolean" then { m with duration := some maxDuration } else m
        some (l.set i (setStepCount a m))
    else
      some (l.set i (setStepCount a m))

/-- The planner's second `forEach`: step through the indices, threading the
mutated list.  The counter `k` is the number of elements left to process. -/
def plannerSecondPass (a : Engine) (r : Registry) (maxDuration : ℚ) (fuel : ℕ) :
    List PMove → ℕ → ℕ → Option (List PMove)
  | l, _, 0 => some l
  | l, i, k + 1 =>
    match plannerSecondStep a r maxDuration fuel l i with
    | none => none
    | some l' => plannerSecondPass a r maxDuration fuel l' (i + 1) k

/-- The linear-interpolation provider
`({ from, to, x }) => from + x * (to - from)` built for a numeric axis with
`to !== from`.  A validated movement reaching it always has a numeric `to`;
the `getD 0` default stands for the `NaN` arithmetic of the unreachable
untyped cases. -/
def linearProvider : Ctx → JSVal := fun c =>
  .num (c.fromValue.toNum + c.x * (((c.toVal.map JSVal.toNum).getD 0) - c.fromValue.toNum))

/-- The third pass of `#createValueProviders`: build each provider.  A
user-supplied `value` function is used verbatim; a boolean axis gets the
constant function `() => movement.to`; a numeric axis gets the linear
interpolation, or the no-op provider `() => {}` (returning `undefined`) when
`movement.to !== movement.from` fails. -/
def makeProvider (r : Registry) (m : PMove) : Option Provider :=
  match m.value with
  | some f => some { valueProvider := f, parameters := m.params }
  | none =>
    match r m.axis with
    | none => none  -- a TypeError in the source (unknown axis)
    | some cfg =>
      let f : Ctx → JSVal :=
        if cfg.type = "boolean" then fun _ => m.toVal.getD .undef
        else if m.toVal == some m.fromValue then fun _ => .undef
        else linearProvider
      some { valueProvider := f, parameters := m.params }

/-- `#createValueProviders(movements)`.  `none` models the `TypeError`s and
the non-terminating sync walk, none of which a validated batch can reach. -/
def createValueProviders (a : Engine) (r : Registry)
    (movements : List Movement) (fuel : ℕ) : Option (List Provider) :=
  let computed := movements.map (plannerFirstPass a r)
  let maxDuration := plannerMaxDuration computed
  match plannerSecondPass a r maxDuration fuel computed 0 computed.length with
  | none => none
  | some l => l.mapM (makeProvider r)

/-! ## Admission queue (`move`, `stop`, `#performMovements`)

JavaScript runs one task at a time; suspension happens only at `await`.  Each
`move()` call is modelled as a task whose program counter records which
suspension point it sleeps at:

* `polling` — inside `while (exists && !ready) await this.sleep()`;
* `executing k` — inside `#performMovements`, sleeping in loop iteration `k`
  (so `#movementInProgress` was set to `true` on entry);
* `doneTrue` / `doneFalse` — the promise resolved with `true` / `false`.

Everything a task does between two `await`s is one atomic transition.  The
code between admission (`#movements.add`) and the first `await` — including
setting `#movementInProgress = true` and, for a zero-step batch, the whole of
`#performMovements` and the `finally` block — runs atomically with the
submission.  Cancellation never rejects in this model, faithfully to the
source: the only `reject` path re-throws an exception from `#performMovements`,
which the cancellation paths (`return false`) never take; the model assumes
provider execution itself does not throw. -/

/-- The suspension point a `move()` task sleeps at, or its result. -/
inductive TaskPc where
  | polling
  | executing (k : ℕ)
  | doneTrue
  | doneFalse
deriving DecidableEq, Repr

/-- One `move()` call: its movement id, the total step count of its batch
(`#computeStepCount`), and its program counter. -/
structure Task where
  id : ℕ
  sc : ℕ
  pc : TaskPc
deriving DecidableEq, Repr

/-- The engine state the queue logic touches: `#movements` (a JS `Set`
iterated in insertion order, modelled as an ordered list of unique ids),
`#movementInProgress`, `#nextMovementId`, and the set of live `move()`
tasks. -/
structure QState where
  movements : List ℕ
  inProgress : Bool
  nextId : ℕ
  tasks : List Task
deriving DecidableEq, Repr

/-- The state of a fresh `Ayva` instance (`#nextMovementId = 1`). -/
def QState.init : QState := { movements := [], inProgress := false, nextId := 1, tasks := [] }

/-- `#movementReady(id)`:
`!this.#movementInProgress && this.#movements.values().next().value === movementId`. -/
def QState.movementReady (s : QState) (id : ℕ) : Bool :=
  !s.inProgress && s.movements.head? == some id

/-- A task enters `#performMovements` (after `#movementInProgress = true`):
with a positive step count it runs iteration 0 and sleeps; with step count 0
the `for` loop body never runs, `true` is returned and the `finally` block
(reset `#movementInProgress`, delete the id) runs before any suspension. -/
def QState.beginMovement (s : QState) (i : ℕ) (t : Task) : QState :=
  if t.sc = 0 then
    { s with movements := s.movements.erase t.id
             tasks := s.tasks.set i { t with pc := .doneTrue } }
  else
    { s with inProgress := true
             tasks := s.tasks.set i { t with pc := .executing 0 } }

/-- A new `move()` call (its batch already validated): take a fresh id, add
it to `#movements`, then either enter the polling loop (when
`#movementInProgress`) or start `#performMovements` at once. -/
def QState.submit (s : QState) (sc : ℕ) : QState :=
  let t : Task := { id := s.nextId, sc, pc := .polling }
  let s' : QState :=
    { s with nextId := s.nextId + 1
             movements := s.movements ++ [s.nextId]
             tasks := s.tasks ++ [t] }
  if s.inProgress then s' else s'.beginMovement s.tasks.length t

/-- Task `i` wakes inside the polling loop: re-test the loop condition; a
vanished id resolves `false` (the `return false` before the `try`, which
neither deletes anything nor touches `#movementInProgress`); a ready movement
enters `#performMovements`; otherwise sleep again. -/
def QState.poll (s : QState) (i : ℕ) : QState :=
  match s.tasks.get? i with
  | some t =>
    if t.pc = .polling then
      if !s.movements.contains t.id then
        { s with tasks := s.tasks.set i { t with pc := .doneFalse } }
      else if s.movementReady t.id then s.beginMovement i t
      else s
    else s
  | none => s

/-- Task `i` wakes from the `await` of `#performMovements` loop iteration
`k`: a vanished id returns `false`, exhausting the loop returns `true` (both
through the `finally` block), otherwise run iteration `k + 1` and sleep. -/
def QState.tick (s : QState) (i : ℕ) : QState :=
  match s.tasks.get? i with
  | some t =>
    match t.pc with
    | .executing k =>
      if !s.movements.contains t.id then
        { s with inProgress := false
                 movements := s.movements.erase t.id
                 tasks := s.tasks.set i { t with pc := .doneFalse } }
      else if k + 1 ≥ t.sc then
        { s with inProgress := false
                 movements := s.movements.erase t.id
                 tasks := s.tasks.set i { t with pc := .doneTrue } }
      else
        { s with tasks := s.tasks.set i { t with pc := .executing (k + 1) } }
    | _ => s
  | none => s

/-- `stop()`: `this.#movements.clear()`. -/
def QState.stop (s : QState) : QState := { s with movements := [] }

/-- The interleaving semantics: at any suspension the scheduler may admit a
new `move()`, wake any sleeping task, or run `stop()`. -/
inductive QStep : QState → QState → Prop where
  | submit (s : QState) (sc : ℕ) : QStep s (s.submit sc)
  | poll (s : QState) (i : ℕ) : QStep s (s.poll i)
  | tick (s : QState) (i : ℕ) : QStep s (s.tick i)
  | stop (s : QState) : QStep s s.stop

/-- States reachable from a fresh instance. -/
def QReachable (s : QState) : Prop := Relation.ReflTransGen QStep QState.init s

/-- Whether a task is in the Executing state (inside `#performMovements`). -/
def TaskPc.isExecuting : TaskPc → Bool
  | .executing _ => true
  | _ => false

/-- The number of tasks currently inside `#performMovements`. -/
def QState.execCount (s : QState) : ℕ :=
  s.tasks.countP (fun t => t.pc.isExecuting)

/-! ## C10 — falsy `min`/`max` defaults in `#validateAxisConfig` -/

/-- C10: an axis configuration whose `min` and `max` are present but `0` is
accepted: the falsy-default substitution (`axisConfig.max || 1`,
`axisConfig.min || 0`) happens before the `min`/`max` consistency check, so
the stored configuration carries `min = 0`, `max = 1`, even though the bounds
as written by the caller are equal. -/
theorem c10_zero_bounds_defaulted (r : Registry) (cfg : AxisConfigInput)
    (hmin : cfg.min = some 0) (hmax : cfg.max = some 0)
    (htype : (["linear", "rotation", "auxiliary", "boolean"] : List String).contains cfg.type = true)
    (halias : cfg.aliasName = none) :
    (validateAxisConfig cfg).toOption.map (fun res => (res.min, res.max)) = some (0, 1)
    ∧ (configureAxis r cfg).2 = none
    ∧ ((configureAxis r cfg).1 cfg.name).map (fun c => (c.min, c.max)) = some (0, 1) := by
  have hval : validateAxisConfig cfg = .ok
      { name := cfg.name, type := cfg.type, aliasName := cfg.aliasName
        min := 0, max := 1
        value := if cfg.type = "boolean" then .bool false else .num (1/2) } := by
    unfold validateAxisConfig
    have ht : cfg.type = "linear" ∨ cfg.type = "rotation" ∨ cfg.type = "auxiliary"
        ∨ cfg.type = "boolean" := by simpa using htype
    rcases ht with h | h | h | h <;> norm_num [hmin, hmax, h]
  refine ⟨by rw [hval]; rfl, ?_, ?_⟩
  · unfold configureAxis
    rw [hval]
    unfold configureAxisMid
    cases hr : r cfg.name <;> simp [hr, halias]
  · unfold configureAxis
    rw [hval]
    unfold configureAxisMid
    cases hr : r cfg.name <;> simp [hr, halias, Registry.set]

/-- C10 witness: the concrete configuration `{ name: 'L0', type: 'linear',
min: 0, max: 0 }` is accepted on a fresh instance and stored with
`min = 0`, `max = 1`. -/
theorem c10_zero_bounds_witness :
    (validateAxisConfig { name := "L0", type := "linear", min := some 0, max := some 0 }).toOption.map
        (fun res => (res.min, res.max)) = some (0, 1)
    ∧ (configureAxis Registry.empty
        { name := "L0", type := "linear", min := some 0, max := some 0 }).2 = none
    ∧ ((configureAxis Registry.empty
        { name := "L0", type := "linear", min := some 0, max := some 0 }).1 "L0").map
        (fun c => (c.min, c.max)) = some (0, 1) :=
  c10_zero_bounds_defaulted Registry.empty
    { name := "L0", type := "linear", min := some 0, max := some 0 }
    rfl rfl (by decide) rfl

/-! ## C3 — `configureAxis` with a colliding alias mutates before throwing -/

/-- The registry after configuring axis `A` with alias `x` on a fresh
instance. -/
def c3regA : Registry :=
  (configureAxis Registry.empty { name := "A", type := "linear", aliasName := some "x" }).1

/-- Configuring a different axis `B` with the already-bound alias `x`. -/
def c3resultB : Registry × Option String :=
  configureAxis c3regA { name := "B", type := "linear", aliasName := some "x" }

/-- C3 counterexample: `configureAxis` with an alias bound to a different
axis throws the configuration error, but the registry is not left unchanged —
the failing call has already added the `B` name entry. -/
theorem c3_counterexample :
    c3resultB.2.isSome = true ∧ c3regA "B" = none ∧ (c3resultB.1 "B").isSome = true := by
  refine ⟨rfl, rfl, rfl⟩

/-- C3 (amended): `configureAxis` called with a non-blank alias that is
already bound throws the alias-collision error and adds no entry for the new
alias, but the registry is already mutated when the error is thrown: the
result equals the intermediate registry `configureAxisMid` — the name entry
has been (re)bound to the new configuration (preserving a pre-existing live
value) and, when an axis of that name existed, its old alias entry deleted. -/
theorem c3_alias_collision_partial_mutation (r : Registry) (cfg : AxisConfigInput)
    (res : AxisCfg) (al : String)
    (hval : validateAxisConfig cfg = .ok res)
    (hal : cfg.aliasName = some al) (hne : al ≠ "")
    (hcol : ((configureAxisMid r cfg res).1 al).isSome = true) :
    configureAxis r cfg
      = ((configureAxisMid r cfg res).1,
         some ("Alias already refers to another axis: " ++ al))
    ∧ (configureAxisMid r cfg res).1 cfg.name = some (configureAxisMid r cfg res).2 := by
  constructor
  · rcases hm : configureAxisMid r cfg res with ⟨r2, res2⟩
    rw [hm] at hcol
    unfold configureAxis
    rw [hval, hal]
    simp only [hm]
    simp [hne, hcol]
  · unfold configureAxisMid
    cases hr : r cfg.name <;> simp [hr, Registry.set]

/-- C3 witness: the amended statement at the concrete collision of
`c3_counterexample`. -/
theorem c3_alias_collision_witness :
    configureAxis c3regA { name := "B", type := "linear", aliasName := some "x" }
      = ((configureAxisMid c3regA { name := "B", type := "linear", aliasName := some "x" }
            { name := "B", type := "linear", aliasName := some "x"
              min := 0, max := 1, value := .num (1/2) }).1,
         some ("Alias already refers to another axis: " ++ "x"))
    ∧ (configureAxisMid c3regA { name := "B", type := "linear", aliasName := some "x" }
          { name := "B", type := "linear", aliasName := some "x"
            min := 0, max := 1, value := .num (1/2) }).1 "B"
      = some (configureAxisMid c3regA { name := "B", type := "linear", aliasName := some "x" }
          { name := "B", type := "linear", aliasName := some "x"
            min := 0, max := 1, value := .num (1/2) }).2 :=
  c3_alias_collision_partial_mutation c3regA
    { name := "B", type := "linear", aliasName := some "x" }
    { name := "B", type := "linear", aliasName := some "x"
      min := 0, max := 1, value := .num (1/2) }
    "x" rfl rfl (by decide) (by decide)

/-! ## C5 — values committed by the tick executor -/

/-- What the tick executor can commit into an axis's live `value`: a boolean
(a user-supplied provider may return one, and the filter keeps it), or a
finite number confined to `[0, 1]`. -/
def committedValueOk (v : JSVal) : Prop :=
  v.isBool = true ∨ ∃ q, v = .num q ∧ 0 ≤ q ∧ q ≤ 1

/-- A numeric result of `#executeProvider` has been clamped into `[0, 1]`. -/
theorem executeProvider_num_mem (a : Engine) (r : Registry) (p : Provider)
    (index : ℕ) (q : ℚ) (h : (executeProvider a r p index).2 = .num q) :
    0 ≤ q ∧ q ≤ 1 := by
  unfold executeProvider at h
  dsimp only at h
  split at h
  · cases h
    unfold clamp
    exact ⟨le_min (le_max_right _ _) zero_le_one, min_le_right _ _⟩
  · next hnf =>
    rw [h] at hnf
    simp [JSVal.isFiniteNum] at hnf

/-- The commit loop of `#executeProviders` only writes values from its
(already validated) axis-value list; everything else is left unchanged. -/
theorem commitFold_good (r0 : Registry) (l : List (String × JSVal)) :
    ∀ (acc : Registry),
      (∀ av ∈ l, committedValueOk av.2) →
      (∀ ax cfg, acc ax = some cfg → r0 ax = some cfg ∨ committedValueOk cfg.value) →
      ∀ ax cfg, (l.foldl commitValue acc) ax = some cfg →
        r0 ax = some cfg ∨ committedValueOk cfg.value := by
  induction l with
  | nil => intro acc _ h2 ax cfg h; exact h2 _ _ h
  | cons av tl ih =>
    intro acc h1 h2 ax cfg h
    refine ih (commitValue acc av) (fun x hx => h1 x (List.mem_cons_of_mem _ hx)) ?_ ax cfg h
    intro ax' cfg' hc
    cases hcc : acc av.1 with
    | none =>
      rw [commitValue, hcc] at hc
      exact h2 _ _ hc
    | some c =>
      rw [commitValue, hcc] at hc
      unfold Registry.set at hc
      dsimp only at hc
      by_cases hax : ax' = av.1
      · rw [if_pos hax] at hc
        cases hc
        exact Or.inr (h1 av (List.mem_cons_self _ _))
      · rw [if_neg hax] at hc
        exact h2 _ _ hc

/-- C5 (amended): every value the tick executor commits for an axis is either
a finite number confined to `[0, 1]` (numeric provider outputs are rounded to
10 decimals and clamped) or a boolean — a user-supplied value provider that
returns a boolean has it committed as-is, even on a non-boolean axis, so the
numeric-in-`[0,1]` guarantee holds for every *numeric* committed value but
not for every committed value of a non-boolean axis. -/
theorem c5_committed_values (a : Engine) (r : Registry) (ps : List Provider)
    (index : ℕ) (ax : String) (cfg : AxisCfg)
    (h : (executeProviders a r ps index).1 ax = some cfg)
    (hchanged : r ax ≠ some cfg) :
    committedValueOk cfg.value := by
  unfold executeProviders at h
  dsimp only at h
  split at h
  · have hgoods : ∀ av ∈ (ps.map (fun p => executeProvider a r p index)).filter
        (fun av => av.2.isFiniteNum || av.2.isBool), committedValueOk av.2 := by
      intro av hav
      have hmem := List.mem_filter.mp hav
      have hpred := hmem.2
      rcases List.mem_map.mp hmem.1 with ⟨p, _, hp⟩
      rcases hbool : av.2 with q | b | _ | _ | _
      · refine Or.inr ⟨q, rfl, ?_⟩
        exact executeProvider_num_mem a r p index q (by rw [hp, hbool])
      · exact Or.inl rfl
      all_goals
        exfalso
        rw [hbool] at hpred
        simp [JSVal.isFiniteNum, JSVal.isBool] at hpred
    rcases commitFold_good r _ r hgoods (fun _ _ hc => Or.inl hc) ax cfg h with h1 | h2
    · exact absurd h1 hchanged
    · exact h2
  · exact absurd h hchanged

/-- A linear axis `L0` with full range and live value `0.5`. -/
def regL0 : Registry := fun s =>
  if s = "L0" then
    some { name := "L0", type := "linear", aliasName := none, min := 0, max := 1, value := .num (1/2) }
  else none

/-- C5 counterexample: a user-supplied value provider returning `true` on the
*linear* axis `L0` has the boolean committed as the axis's live value — the
registry value of a non-boolean axis is not always a number in `[0, 1]`. -/
theorem c5_counterexample :
    ((executeProviders {} regL0
        [{ valueProvider := fun _ => .bool true
           parameters := { axis := "L0", fromValue := .num (1/2), period := 1/50 } }] 0).1 "L0").map
      (fun c => c.value) = some (.bool true)
    ∧ (regL0 "L0").map (fun c => c.type) = some "linear" :=
  ⟨rfl, rfl⟩

/-- C5 witness: the amended statement at a provider committing `0.7`. -/
theorem c5_committed_values_witness : committedValueOk (.num (7/10)) := by
  refine c5_committed_values {} regL0
    [{ valueProvider := fun _ => .num (7/10)
       parameters := { axis := "L0", fromValue := .num (1/2), period := 1/50 } }] 0 "L0"
    { name := "L0", type := "linear", aliasName := none, min := 0, max := 1, value := .num (7/10) }
    ?_ ?_
  · have hr : round (7/10 : ℚ) 10 = 7/10 := by norm_num [round, jsRound]
    simp [executeProviders, executeProvider, commitValue, regL0, Registry.set,
          JSVal.isFiniteNum, JSVal.isBool, JSVal.toNum, clamp, hr]
    norm_num
  · intro h
    simp only [regL0, eq_self_iff_true, if_true, Option.some.injEq, AxisCfg.mk.injEq,
      JSVal.num.injEq] at h
    norm_num at h

/-! ## C8 — encoding a commanded 0.5 on a full-range numeric axis -/

/-- C8 (amended): on a numeric axis with `min = 0`, `max = 1`, committing the
value `0.5` emits the token `<name>500`, not `<name>499`: the `0.999`
pre-scale gives `0.4995`, which `round(·, 3)` takes half-up to `0.500`; the
scaled value `0.5` then yields `round(0.5·1000) = 500`, clamped to `[0,999]`
and zero-padded.  The general numeric encoding is exactly
scale-into-`[min,max]`, round to 3 decimals, multiply by 1000, clamp, pad. -/
theorem c8_half_scaled_token (a : Engine) (r : Registry) (ax : String)
    (cfg : AxisCfg) (p : Provider) (index : ℕ)
    (hax : r ax = some cfg) (hmin : cfg.min = 0) (hmax : cfg.max = 1)
    (hp : p.parameters.axis = ax) (hv : ∀ c, p.valueProvider c = .num (1/2)) :
    round ((1/2 : ℚ) * (999/1000)) 3 = 1/2
    ∧ (executeProviders a r [p] index).2 = some (cfg.name ++ "500" ++ "\n")
    ∧ (∀ q : ℚ, tcode r ax (.num q)
        = cfg.name
          ++ pad3 ((min (max (jsRound (((cfg.max - cfg.min) * q + cfg.min) * 1000)) 0) 999).toNat)) := by
  have hpre : round ((1/2 : ℚ) * (999/1000)) 3 = 1/2 := by
    norm_num [round, jsRound]
  have hj : jsRound ((((1 : ℚ) - 0) * (1/2) + 0) * 1000) = 500 := by
    norm_num [jsRound]
  have hpad : pad3 (Int.toNat 500) = "500" := by decide
  have htok : tcode r ax (.num (1/2)) = cfg.name ++ "500" := by
    simp only [tcode, hax, hmin, hmax, JSVal.toNum, hj]
    rw [show min (max (500 : ℤ) 0) 999 = 500 by decide, hpad]
  have hexec : executeProvider a r p index = (ax, .num (1/2)) := by
    simp only [executeProvider]
    rw [hv, hp]
    simp [JSVal.isFiniteNum, JSVal.toNum]
    norm_num [clamp, round, jsRound]
  refine ⟨hpre, ?_, ?_⟩
  · simp only [executeProviders, List.map, hexec, List.filter, JSVal.isFiniteNum,
      Bool.true_or, if_true, cond_true]
    rw [hpre, htok]
    rfl
  · intro q
    simp only [tcode, hax, JSVal.toNum]

/-- C8 counterexample: the concrete pipeline on axis `L0` (`min=0`, `max=1`)
with a provider committing `0.5` writes the line `L0500\n`; the claimed token
`499` does not match. -/
theorem c8_counterexample :
    (executeProviders {} regL0
        [{ valueProvider := fun _ => .num (1/2)
           parameters := { axis := "L0", fromValue := .num (1/2), period := 1/50 } }] 0).2
      = some "L0500\n"
    ∧ ("L0500\n" : String) ≠ "L0499\n" := by
  constructor
  · have hpre : round ((1/2 : ℚ) * (999/1000)) 3 = 1/2 := by
      norm_num [round, jsRound]
    have hj : jsRound ((((1 : ℚ) - 0) * (1/2) + 0) * 1000) = 500 := by
      norm_num [jsRound]
    have htok : tcode regL0 "L0" (.num (1/2)) = "L0" ++ "500" := by
      simp only [tcode, regL0, eq_self_iff_true, if_true, JSVal.toNum, hj]
      rw [show min (max (500 : ℤ) 0) 999 = 500 by decide]
      decide
    have hexec : executeProvider {} regL0
        { valueProvider := fun _ => .num (1/2)
          parameters := { axis := "L0", fromValue := .num (1/2), period := 1/50 } } 0
        = ("L0", .num (1/2)) := by
      simp only [executeProvider]
      simp [JSVal.isFiniteNum, JSVal.toNum]
      norm_num [clamp, round, jsRound]
    simp only [executeProviders, List.map, hexec, List.filter, JSVal.isFiniteNum,
      Bool.true_or, if_true, cond_true]
    rw [hpre, htok]
    rfl
  · decide

/-- C8 witness: the amended statement at the concrete axis `L0`. -/
theorem c8_half_scaled_token_witness :
    round ((1/2 : ℚ) * (999/1000)) 3 = 1/2
    ∧ (executeProviders {} regL0
        [{ valueProvider := fun _ => .num (1/2)
           parameters := { axis := "L0", fromValue := .num (1/2), period := 1/50 } }] 0).2
      = some ("L0" ++ "500" ++ "\n")
    ∧ (∀ q : ℚ, tcode regL0 "L0" (.num q)
        = "L0" ++ pad3 ((min (max (jsRound ((((1:ℚ) - 0) * q + 0) * 1000)) 0) 999).toNat)) :=
  c8_half_scaled_token {} regL0 "L0"
    { name := "L0", type := "linear", aliasName := none, min := 0, max := 1, value := .num (1/2) }
    _ 0 rfl rfl rfl rfl (fun _ => rfl)

/-! ## C9 — boolean axis tokens -/

/-- C9: for a boolean axis, `#tcode` maps `true` to the token
`<name>999` and `false` to `<name>000`, with no `min`/`max` scaling (the
boolean branch never reads them); and the full pipeline — planning the batch
`{axis, to: b}` and executing its constant provider on the immediate pass —
writes exactly that token. -/
theorem c9_boolean_tokens (a : Engine) (r : Registry) (ax : String)
    (cfg : AxisCfg) (b : Bool) (fuel : ℕ)
    (hax : r ax = some cfg) (htype : cfg.type = "boolean") (hne : ax ≠ "") :
    tcode r ax (.bool b) = cfg.name ++ (if b then "999" else "000")
    ∧ ((createValueProviders a r [{ axis := some ax, toVal := some (.bool b) }] fuel).map
        (fun ps => (executeProviders a r ps 0).2))
      = some (some (cfg.name ++ (if b then "999" else "000") ++ "\n")) := by
  constructor
  · simp [tcode, hax]
  · have hcreate : createValueProviders a r [{ axis := some ax, toVal := some (.bool b) }] fuel
        = some [{ valueProvider := fun _ => (some (JSVal.bool b)).getD .undef
                  parameters :=
                    { axis := ax, fromValue := cfg.value, toVal := some (.bool b)
                      speed := none, duration := none
                      direction := some
                        (if (JSVal.bool b).toNum - cfg.value.toNum > 0 then 1
                         else if (JSVal.bool b).toNum - cfg.value.toNum < 0 then -1 else 0)
                      stepCount := none, period := a.period } }] := by
      simp only [createValueProviders, plannerFirstPass, resolveAxis, plannerMaxDuration,
        List.map, List.foldl, plannerSecondPass, plannerSecondStep, setStepCount, makeProvider,
        PMove.params, List.length, List.get?, List.set, List.mapM, List.mapM.loop, hax, htype,
        hne, if_neg, Option.isSome, Option.isNone]
      simp [hax, htype, hne, List.mapM.loop, makeProvider, PMove.params, Option.bind]
    rw [hcreate]
    simp only [Option.map_some']
    simp [executeProviders, executeProvider, JSVal.isFiniteNum, JSVal.isBool, tcode, hax,
      joinTokens]

/-- A boolean axis `V0`. -/
def regV0 : Registry := fun s =>
  if s = "V0" then
    some { name := "V0", type := "boolean", aliasName := none, min := 0, max := 1, value := .bool false }
  else none

/-- C9 witness: commanding `to: true` on the boolean axis `V0` writes the
line `V0999`. -/
theorem c9_boolean_tokens_witness :
    tcode regV0 "V0" (.bool true) = "V0" ++ "999"
    ∧ ((createValueProviders {} regV0 [{ axis := some "V0", toVal := some (.bool true) }] 1).map
        (fun ps => (executeProviders {} regV0 ps 0).2))
      = some (some ("V0" ++ "999" ++ "\n")) :=
  c9_boolean_tokens {} regV0 "V0"
    { name := "V0", type := "boolean", aliasName := none, min := 0, max := 1, value := .bool false }
    true 1 rfl rfl (by decide)

/-! ## C6 — speed/duration resolution and step counts -/

/-- C6: for a single-request batch on a numeric axis the planner derives the
missing one of `speed`/`duration` via `duration = round(|to-from|/speed, 10)`
resp. `speed = round(|to-from|/duration, 10)`, and
`stepCount = round(duration × frequency)`; for `{axis, to: 1, speed: 1}`
starting at `from = 0` this resolves `duration = 1` and
`stepCount = frequency` whenever the configured tick frequency is a whole
number of Hz. -/
theorem c6_planner_resolution (a : Engine) (r : Registry) (ax : String)
    (cfg : AxisCfg) (v t sp dur : ℚ) (fuel : ℕ)
    (hax : r ax = some cfg) (hne : ax ≠ "") (hval : cfg.value = .num v)
    (htype : cfg.type ≠ "boolean") (hsp : 0 < sp) (hdur : 0 < dur) :
    ((createValueProviders a r [{ axis := some ax, toVal := some (.num t), speed := some sp }] fuel).map
        (List.map Provider.parameters)
      = some [{ axis := ax, fromValue := .num v, toVal := some (.num t)
                speed := some sp
                duration := some (round (|t - v| / sp) 10)
                direction := some (if t - v > 0 then 1 else if t - v < 0 then -1 else 0)
                stepCount := some (jsRound (round (|t - v| / sp) 10 * a.frequency))
                period := a.period }])
    ∧ ((createValueProviders a r [{ axis := some ax, toVal := some (.num t), duration := some dur }] fuel).map
        (List.map Provider.parameters)
      = some [{ axis := ax, fromValue := .num v, toVal := some (.num t)
                speed := some (round (|t - v| / dur) 10)
                duration := some dur
                direction := some (if t - v > 0 then 1 else if t - v < 0 then -1 else 0)
                stepCount := some (jsRound (dur * a.frequency))
                period := a.period }])
    ∧ (∀ n : ℕ, a.frequency = n → v = 0 → t = 1 → sp = 1 →
        round (|t - v| / sp) 10 = 1
        ∧ jsRound (round (|t - v| / sp) 10 * a.frequency) = n) := by
  refine ⟨?_, ?_, ?_⟩
  · simp only [createValueProviders, plannerFirstPass, resolveAxis, plannerMaxDuration,
      List.map, List.foldl, plannerSecondPass, plannerSecondStep, setStepCount, makeProvider,
      PMove.params, List.length, List.get?, List.set, List.mapM, List.mapM.loop, hax, hval,
      hne, htype, JSVal.toNum, if_neg, Option.isSome, Option.isNone]
    simp [hax, htype, hval, List.mapM.loop, makeProvider, PMove.params, JSVal.toNum]
  · simp only [createValueProviders, plannerFirstPass, resolveAxis, plannerMaxDuration,
      List.map, List.foldl, plannerSecondPass, plannerSecondStep, setStepCount, makeProvider,
      PMove.params, List.length, List.get?, List.set, List.mapM, List.mapM.loop, hax, hval,
      hne, htype, JSVal.toNum, if_neg, Option.isSome, Option.isNone]
    simp [hax, htype, hval, List.mapM.loop, makeProvider, PMove.params, JSVal.toNum]
  · intro n hfreq hv ht hsp1
    subst hv ht hsp1
    have h1 : round (|(1 : ℚ) - 0| / 1) 10 = 1 := by
      norm_num [round, jsRound]
    refine ⟨h1, ?_⟩
    rw [h1, hfreq, one_mul]
    unfold jsRound
    rw [Int.floor_eq_iff]
    constructor <;> push_cast <;> linarith

/-- The numeric axis `A` with live value `0`. -/
def regA0 : Registry := fun s =>
  if s = "A" then
    some { name := "A", type := "linear", aliasName := none, min := 0, max := 1, value := .num 0 }
  else none

/-- C6 witness: `{axis: 'A', to: 1, speed: 1}` from `0` at the default 50 Hz
resolves `duration = 1` and `stepCount = 50`. -/
theorem c6_planner_resolution_witness :
    ((createValueProviders {} regA0
        [{ axis := some "A", toVal := some (.num 1), speed := some 1 }] 1).map
        (List.map Provider.parameters)
      = some [{ axis := "A", fromValue := .num 0, toVal := some (.num 1)
                speed := some 1
                duration := some (round (|(1 : ℚ) - 0| / 1) 10)
                direction := some (if (1 : ℚ) - 0 > 0 then 1 else if (1 : ℚ) - 0 < 0 then -1 else 0)
                stepCount := some (jsRound (round (|(1 : ℚ) - 0| / 1) 10 * ({} : Engine).frequency))
                period := ({} : Engine).period }])
    ∧ round (|(1 : ℚ) - 0| / 1) 10 = 1
    ∧ jsRound (round (|(1 : ℚ) - 0| / 1) 10 * ({} : Engine).frequency) = ((50 : ℕ) : ℤ) := by
  have h := c6_planner_resolution {} regA0 "A"
    { name := "A", type := "linear", aliasName := none, min := 0, max := 1, value := .num 0 }
    0 1 1 1 1 rfl (by decide) rfl (by decide) one_pos one_pos
  have h3 := h.2.2 50 (by norm_num) rfl rfl rfl
  exact ⟨h.1, h3.1, h3.2⟩

/-! ## C4 / C7 — the sync-chain walk of `#validateMovements` -/

/-- The sync-chain walk never terminates once it reaches a two-cycle
`mA → mB → mA` whose members' sync targets differ from the walk's origin
axis: for every fuel the walk runs out. -/
theorem syncWalk_two_cycle (map : List (String × Movement)) (origin : Option String)
    (mA mB : Movement) (axA axB : String)
    (hA : map.lookup axA = some mA) (hB : map.lookup axB = some mB)
    (hsA : mA.sync = some axB) (hsB : mB.sync = some axA)
    (hao : (mA.sync == origin) = false) (hbo : (mB.sync == origin) = false) :
    ∀ fuel, syncWalk map origin mA fuel = .outOfFuel
      ∧ syncWalk map origin mB fuel = .outOfFuel := by
  intro fuel
  induction fuel with
  | zero =>
    constructor
    · rw [syncWalk, hsA]
    · rw [syncWalk, hsB]
  | succ k ih =>
    constructor
    · rw [syncWalk]
      simp only [hsA, hB, hbo, Bool.false_eq_true, if_false]
      exact ih.2
    · rw [syncWalk]
      simp only [hsB, hA, hao, Bool.false_eq_true, if_false]
      exact ih.1

/-- The three linear axes used for the C4 failing input. -/
def c4reg : Registry := fun s =>
  if s = "A" then
    some { name := "A", type := "linear", aliasName := none, min := 0, max := 1, value := .num 0 }
  else if s = "B" then
    some { name := "B", type := "linear", aliasName := none, min := 0, max := 1, value := .num 0 }
  else if s = "D" then
    some { name := "D", type := "linear", aliasName := none, min := 0, max := 1, value := .num 0 }
  else none

/-- `{axis: 'D', to: 1, sync: 'A'}` — a movement outside the cycle that syncs
into it. -/
def c4mD : Movement := { axis := some "D", toVal := some (.num 1), sync := some "A" }

/-- `{axis: 'A', to: 1, sync: 'B'}`. -/
def c4mA : Movement := { axis := some "A", toVal := some (.num 1), sync := some "B" }

/-- `{axis: 'B', to: 1, sync: 'A'}`. -/
def c4mB : Movement := { axis := some "B", toVal := some (.num 1), sync := some "A" }

/-- C4: walking the sync chain detects a pure cycle (`A ↔ B`, any positive
fuel reports "Sync axes cannot form a cycle."), but when a movement *outside*
the cycle appears first in the batch (`D → A ↔ B`), the walk started at `D`
circles `A ↔ B` forever without ever matching `sync === originalMovementAxis`
— the source's `while` loop never terminates, so `move()` neither fails nor
returns.  (`outOfFuel` for every fuel models the non-terminating loop.) -/
theorem c4_sync_cycle_detection (fuel : ℕ) :
    validateMovements c4reg none [c4mA, c4mB] (fuel + 1)
      = .error "Sync axes cannot form a cycle."
    ∧ validateMovements c4reg none [c4mD, c4mA, c4mB] fuel = .outOfFuel := by
  constructor
  · rfl
  · have key := syncWalk_two_cycle
      [("D", c4mD), ("A", c4mA), ("B", c4mB)] (some "D") c4mA c4mB "A" "B"
      rfl rfl rfl rfl rfl rfl
    cases fuel with
    | zero => rfl
    | succ k =>
      have h2 : syncWalk [("D", c4mD), ("A", c4mA), ("B", c4mB)] c4mD.axis c4mD (k + 1)
          = .outOfFuel := (key k).1
      have hw : validatePass2 [("D", c4mD), ("A", c4mA), ("B", c4mB)]
          [c4mD, c4mA, c4mB] (k + 1) = .outOfFuel := by
        simp only [validatePass2, h2]
      have hp1 : validatePass1 c4reg none [c4mD, c4mA, c4mB] ⟨[], false, false⟩
          = .ok ⟨[("D", c4mD), ("A", c4mA), ("B", c4mB)], false, true⟩ := rfl
      simp only [validateMovements, List.isEmpty, hp1, hw]
      rfl

/-- The flag bookkeeping of one movement's checks: on success,
`atLeastOneDuration` grows exactly by this movement's `speed`/`duration`
presence, and `atLeastOneNonBoolean` is monotone and set whenever the
movement's resolved axis is non-boolean. -/
theorem checkMovement_ok_flags (r : Registry) (d : Option String) (st : P1State)
    (m : Movement) (st' : P1State) (h : checkMovement r d st m = .ok st') :
    st'.oneDur = (st.oneDur || m.speed.isSome || m.duration.isSome)
    ∧ (st.oneNonBool = true → st'.oneNonBool = true)
    ∧ (∀ ax cfg, resolveAxis d m = some ax → r ax = some cfg → cfg.type ≠ "boolean" →
        st'.oneNonBool = true) := by
  unfold checkMovement at h
  cases hra : resolveAxis d m with
  | none => rw [hra] at h; exact Except.noConfusion h
  | some axis =>
    rw [hra] at h
    dsimp only at h
    by_cases h1 : axis = ""
    · rw [if_pos h1] at h; exact Except.noConfusion h
    rw [if_neg h1] at h
    by_cases h2 : (match m.axis with
                   | some s => strBlank s || (r s).isNone
                   | none => false) = true
    · rw [if_pos h2] at h; exact Except.noConfusion h
    rw [if_neg h2] at h
    cases hcfg : r axis with
    | none => rw [hcfg] at h; exact Except.noConfusion h
    | some cfg =>
      rw [hcfg] at h
      dsimp only at h
      by_cases h3 : (match m.toVal with
                     | some tv => invalidTo cfg tv
                     | none => false) = true
      · rw [if_pos h3] at h; exact Except.noConfusion h
      rw [if_neg h3] at h
      by_cases h4 : (m.toVal.isNone && m.value.isNone) = true
      · rw [if_pos h4] at h; exact Except.noConfusion h
      rw [if_neg h4] at h
      by_cases h5 : (m.speed.isSome && m.duration.isSome) = true
      · rw [if_pos h5] at h; exact Except.noConfusion h
      rw [if_neg h5] at h
      by_cases h6 : (match m.speed with
                     | some sp => decide (sp ≤ 0)
                     | none => false) = true
      · rw [if_pos h6] at h; exact Except.noConfusion h
      rw [if_neg h6] at h
      by_cases h7 : (match m.duration with
                     | some dv => decide (dv ≤ 0)
                     | none => false) = true
      · rw [if_pos h7] at h; exact Except.noConfusion h
      rw [if_neg h7] at h
      by_cases h8 : (m.speed.isSome && m.toVal.isNone) = true
      · rw [if_pos h8] at h; exact Except.noConfusion h
      rw [if_neg h8] at h
      by_cases h9 : (match m.sync with
                     | some sy => strBlank sy
                     | none => false) = true
      · rw [if_pos h9] at h; exact Except.noConfusion h
      rw [if_neg h9] at h
      by_cases h10 : (m.sync.isSome && (m.speed.isSome || m.duration.isSome)) = true
      · rw [if_pos h10] at h; exact Except.noConfusion h
      rw [if_neg h10] at h
      by_cases h11 : (cfg.type == "boolean" && m.speed.isSome) = true
      · rw [if_pos h11] at h; exact Except.noConfusion h
      rw [if_neg h11] at h
      by_cases h12 : (cfg.type == "boolean" && (m.duration.isSome && m.toVal.isSome && m.value.isNone)) = true
      · rw [if_pos h12] at h; exact Except.noConfusion h
      rw [if_neg h12] at h
      by_cases h13 : (st.map.lookup axis).isSome = true
      · rw [if_pos h13] at h; exact Except.noConfusion h
      rw [if_neg h13] at h
      cases h
      refine ⟨rfl, fun hnb => by simp [hnb], ?_⟩
      intro ax cfg2 hax hrc ht
      cases hax
      rw [hcfg] at hrc
      cases hrc
      simp [Bool.or_eq_true, bne_iff_ne, ht]

/-- The flags computed by the whole first pass. -/
theorem validatePass1_flags (r : Registry) (d : Option String) :
    ∀ (ms : List Movement) (st st' : P1State),
      validatePass1 r d ms st = .ok st' →
      ((st.oneDur = false ∧ ∀ m ∈ ms, m.speed = none ∧ m.duration = none) →
        st'.oneDur = false)
      ∧ (st.oneNonBool = true → st'.oneNonBool = true)
      ∧ (∀ m ∈ ms, ∀ ax cfg, resolveAxis d m = some ax → r ax = some cfg →
          cfg.type ≠ "boolean" → st'.oneNonBool = true)
  | [], st, st', h => by
    cases h
    exact ⟨fun hh => hh.1, id, by simp⟩
  | m :: ms, st, st', h => by
    simp only [validatePass1] at h
    cases hc : checkMovement r d st m with
    | error e => rw [hc] at h; exact Except.noConfusion h
    | ok st1 =>
      rw [hc] at h
      obtain ⟨hd1, hmono1, hnb1⟩ := checkMovement_ok_flags r d st m st1 hc
      obtain ⟨ihd, ihmono, ihnb⟩ := validatePass1_flags r d ms st1 st' h
      refine ⟨?_, fun hnb => ihmono (hmono1 hnb), ?_⟩
      · rintro ⟨hdf, hall⟩
        apply ihd
        constructor
        · rw [hd1, hdf]
          have hm := hall m (List.mem_cons_self _ _)
          rw [hm.1, hm.2]
          rfl
        · exact fun x hx => hall x (List.mem_cons_of_mem _ hx)
      · rintro m' hm' ax cfg hax hr ht
        rcases List.mem_cons.mp hm' with rfl | hmem
        · exact ihmono (hnb1 ax cfg hax hr ht)
        · exact ihnb m' hmem ax cfg hax hr ht

/-- A boolean axis `V9`. -/
def c7boolReg : Registry := fun s =>
  if s = "V9" then
    some { name := "V9", type := "boolean", aliasName := none, min := 0, max := 1, value := .bool false }
  else none

/-- C7 (amended): a batch without any explicit `speed`/`duration` that
requests at least one non-boolean axis is never *accepted* — validation
reports an error whenever the sync-chain walk terminates, and the pathological
entered-cycle batches (see the counterexample) make it diverge instead of
erroring; when every requested axis is boolean, the absence of timing does
not by itself cause failure. -/
theorem c7_timing_rule :
    (∀ (r : Registry) (d : Option String) (ms : List Movement) (fuel : ℕ),
      (∀ m ∈ ms, m.speed = none ∧ m.duration = none) →
      (∃ m ∈ ms, ∃ ax cfg, resolveAxis d m = some ax ∧ r ax = some cfg ∧ cfg.type ≠ "boolean") →
      validateMovements r d ms fuel ≠ .ok)
    ∧ validateMovements c7boolReg none
        [{ axis := some "V9", toVal := some (.bool true) }] 1 = .ok := by
  constructor
  · intro r d ms fuel hnotiming hnonbool hok
    unfold validateMovements at hok
    split at hok
    · exact VResult.noConfusion hok
    cases hp1 : validatePass1 r d ms ⟨[], false, false⟩ with
    | error e => rw [hp1] at hok; exact VResult.noConfusion hok
    | ok st =>
      rw [hp1] at hok
      dsimp only at hok
      obtain ⟨hdur, _, hnb⟩ := validatePass1_flags r d ms ⟨[], false, false⟩ st hp1
      have hdurf : st.oneDur = false := hdur ⟨rfl, hnotiming⟩
      obtain ⟨m, hm, ax, cfg, hax, hr, ht⟩ := hnonbool
      have hnbt : st.oneNonBool = true := hnb m hm ax cfg hax hr ht
      cases hp2 : validatePass2 st.map ms fuel with
      | ok =>
        rw [hp2] at hok
        dsimp only at hok
        rw [hdurf, hnbt] at hok
        exact VResult.noConfusion hok
      | error e => rw [hp2] at hok; exact VResult.noConfusion hok
      | outOfFuel => rw [hp2] at hok; exact VResult.noConfusion hok
  · rfl

/-- The three linear axes of the C7 counterexample. -/
def c7reg : Registry := fun s =>
  if s = "E" then
    some { name := "E", type := "linear", aliasName := none, min := 0, max := 1, value := .num 0 }
  else if s = "F" then
    some { name := "F", type := "linear", aliasName := none, min := 0, max := 1, value := .num 0 }
  else if s = "G" then
    some { name := "G", type := "linear", aliasName := none, min := 0, max := 1, value := .num 0 }
  else none

/-- `{axis: 'E', to: 1, sync: 'F'}`. -/
def c7mE : Movement := { axis := some "E", toVal := some (.num 1), sync := some "F" }

/-- `{axis: 'F', to: 1, sync: 'G'}`. -/
def c7mF : Movement := { axis := some "F", toVal := some (.num 1), sync := some "G" }

/-- `{axis: 'G', to: 1, sync: 'F'}`. -/
def c7mG : Movement := { axis := some "G", toVal := some (.num 1), sync := some "F" }

/-- `#validateMovements` never returns on this input: the sync walk loops. -/
def validationDiverges (r : Registry) (d : Option String) (ms : List Movement) : Prop :=
  ∀ fuel, validateMovements r d ms fuel = .outOfFuel

/-- C7 counterexample: a batch with no `speed`/`duration` anywhere and
non-boolean axes whose sync references enter a cycle (`E → F ↔ G`) does not
fail validation — the validator diverges, so the `move()` call never aborts
with an error. -/
theorem c7_counterexample :
    validationDiverges c7reg none [c7mE, c7mF, c7mG]
    ∧ ([c7mE, c7mF, c7mG].all (fun m => m.speed == none && m.duration == none)) = true
    ∧ (c7reg "E").map (fun c => c.type) = some "linear" := by
  refine ⟨?_, rfl, rfl⟩
  intro fuel
  have key := syncWalk_two_cycle [("E", c7mE), ("F", c7mF), ("G", c7mG)] (some "E")
    c7mF c7mG "F" "G" rfl rfl rfl rfl rfl rfl
  cases fuel with
  | zero => rfl
  | succ k =>
    have h2 : syncWalk [("E", c7mE), ("F", c7mF), ("G", c7mG)] c7mE.axis c7mE (k + 1)
        = .outOfFuel := (key k).1
    have hw : validatePass2 [("E", c7mE), ("F", c7mF), ("G", c7mG)]
        [c7mE, c7mF, c7mG] (k + 1) = .outOfFuel := by
      simp only [validatePass2, h2]
    have hp1 : validatePass1 c7reg none [c7mE, c7mF, c7mG] ⟨[], false, false⟩
        = .ok ⟨[("E", c7mE), ("F", c7mF), ("G", c7mG)], false, true⟩ := rfl
    simp only [validateMovements, List.isEmpty, hp1, hw]
    rfl

/-- A rotation axis `W`. -/
def c7reg2 : Registry := fun s =>
  if s = "W" then
    some { name := "W", type := "rotation", aliasName := none, min := 0, max := 1, value := .num 0 }
  else none

/-- C7 witness: the no-timing batch `[{axis: 'W', to: 1}]` on a rotation axis
is not accepted, while the boolean batch `[{axis: 'V9', to: true}]` without
timing validates fine. -/
theorem c7_timing_rule_witness :
    validateMovements c7reg2 none [{ axis := some "W", toVal := some (.num 1) }] 1 ≠ .ok
    ∧ validateMovements c7boolReg none
        [{ axis := some "V9", toVal := some (.bool true) }] 1 = .ok := by
  refine ⟨?_, c7_timing_rule.2⟩
  refine c7_timing_rule.1 c7reg2 none _ 1 ?_ ?_
  · intro m hm
    rcases List.mem_cons.mp hm with rfl | hmem
    · exact ⟨rfl, rfl⟩
    · cases hmem
  · exact ⟨_, List.mem_cons_self _ _, "W",
      { name := "W", type := "rotation", aliasName := none, min := 0, max := 1, value := .num 0 },
      rfl, rfl, by decide⟩

/-! ## C1 / C2 — the admission queue -/

/-- Updating one task changes `countP` exactly by the old and new element's
predicate values. -/
theorem countP_set_eq (p : Task → Bool) :
    ∀ (l : List Task) (i : ℕ) (t t' : Task), l.get? i = some t →
      (l.set i t').countP p + (if p t then 1 else 0)
        = l.countP p + (if p t' then 1 else 0)
  | [], i, t, t', h => by cases h
  | a :: l, 0, t, t', h => by
    injection h with h2
    subst h2
    cases hpa : p a <;> cases hpt : p t' <;>
      simp [List.set, List.countP_cons, hpa, hpt] <;> omega
  | a :: l, i + 1, t, t', h => by
    have ih := countP_set_eq p l i t t' h
    cases hpt : p t <;> cases hpt' : p t' <;> cases hpa : p a <;>
      simp [List.set, List.countP_cons, hpa, hpt, hpt'] at ih ⊢ <;> omega

/-- The predicate "is inside `#performMovements`". -/
def pExec : Task → Bool := fun u => u.pc.isExecuting

theorem countP_set_stay (l : List Task) (i : ℕ) (t t' : Task)
    (hget : l.get? i = some t) (hpt : pExec t = false) (hpt' : pExec t' = false) :
    (l.set i t').countP pExec = l.countP pExec := by
  have h := countP_set_eq pExec l i t t' hget
  rw [hpt, hpt'] at h
  simpa using h

theorem countP_set_stay' (l : List Task) (i : ℕ) (t t' : Task)
    (hget : l.get? i = some t) (hpt : pExec t = true) (hpt' : pExec t' = true) :
    (l.set i t').countP pExec = l.countP pExec := by
  have h := countP_set_eq pExec l i t t' hget
  rw [hpt, hpt'] at h
  simpa using h

theorem countP_set_up (l : List Task) (i : ℕ) (t t' : Task)
    (hget : l.get? i = some t) (hpt : pExec t = false) (hpt' : pExec t' = true) :
    (l.set i t').countP pExec = l.countP pExec + 1 := by
  have h := countP_set_eq pExec l i t t' hget
  rw [hpt, hpt'] at h
  simpa using h

theorem countP_set_down (l : List Task) (i : ℕ) (t t' : Task)
    (hget : l.get? i = some t) (hpt : pExec t = true) (hpt' : pExec t' = false) :
    (l.set i t').countP pExec + 1 = l.countP pExec := by
  have h := countP_set_eq pExec l i t t' hget
  rw [hpt, hpt'] at h
  simpa using h

/-- `get?` after `set` at the same (in-bounds) index. -/
theorem get?_set_self :
    ∀ (l : List Task) (i : ℕ) (t t' : Task), l.get? i = some t →
      (l.set i t').get? i = some t'
  | [], i, t, t', h => by cases h
  | a :: l, 0, t, t', _ => rfl
  | a :: l, i + 1, t, t', h => get?_set_self l i t t' h

theorem execCount_eq (s : QState) : s.execCount = s.tasks.countP pExec := rfl

/-- The queue invariant: the number of tasks inside `#performMovements` is
exactly one while `#movementInProgress`, zero otherwise; and every id in
`#movements`, like every task id, is below `#nextMovementId`. -/
def QInv (s : QState) : Prop :=
  s.tasks.countP pExec = (if s.inProgress then 1 else 0)
  ∧ (∀ id ∈ s.movements, id < s.nextId)
  ∧ (∀ t ∈ s.tasks, t.id < s.nextId)

theorem QInv_beginMovement (s : QState) (i : ℕ) (t : Task)
    (hget : s.tasks.get? i = some t) (hpc : t.pc = .polling)
    (hip : s.inProgress = false)
    (hmov : ∀ id ∈ s.movements, id < s.nextId)
    (htasks : ∀ u ∈ s.tasks, u.id < s.nextId)
    (hcount : s.tasks.countP pExec = 0) :
    QInv (s.beginMovement i t) := by
  have htid : t.id < s.nextId := htasks t (List.get?_mem hget)
  have hpt : pExec t = false := by rw [pExec, hpc]; rfl
  unfold QState.beginMovement
  by_cases hsc : t.sc = 0
  · rw [if_pos hsc]
    refine ⟨?_, ?_, ?_⟩
    · rw [countP_set_stay s.tasks i t { t with pc := .doneTrue } hget hpt (by rfl), hcount, hip]
      rfl
    · intro id hid
      exact hmov id (List.mem_of_mem_erase hid)
    · intro u hu
      rcases List.mem_or_eq_of_mem_set hu with h | h
      · exact htasks u h
      · rw [h]; exact htid
  · rw [if_neg hsc]
    refine ⟨?_, hmov, ?_⟩
    · rw [countP_set_up s.tasks i t { t with pc := .executing 0 } hget hpt (by rfl), hcount]
      rfl
    · intro u hu
      rcases List.mem_or_eq_of_mem_set hu with h | h
      · exact htasks u h
      · rw [h]; exact htid

theorem QInv_submit (s : QState) (sc : ℕ) (h : QInv s) : QInv (s.submit sc) := by
  obtain ⟨hc, hm, ht⟩ := h
  have hm' : ∀ id ∈ s.movements ++ [s.nextId], id < s.nextId + 1 := by
    intro id hid
    rcases List.mem_append.mp hid with h | h
    · exact Nat.lt_succ_of_lt (hm id h)
    · simp at h; omega
  have ht' : ∀ u ∈ s.tasks ++ [(⟨s.nextId, sc, .polling⟩ : Task)], u.id < s.nextId + 1 := by
    intro u hu
    rcases List.mem_append.mp hu with h | h
    · exact Nat.lt_succ_of_lt (ht u h)
    · simp at h; rw [h]; exact Nat.lt_succ_self _
  have hcount' : (s.tasks ++ [(⟨s.nextId, sc, .polling⟩ : Task)]).countP pExec
      = s.tasks.countP pExec := by
    rw [List.countP_append]
    rfl
  unfold QState.submit
  by_cases hip : s.inProgress
  · rw [if_pos hip]
    exact ⟨by rw [hcount', hc], hm', ht'⟩
  · rw [if_neg hip]
    apply QInv_beginMovement
    · exact List.get?_concat_length _ _
    · rfl
    · simpa using hip
    · exact hm'
    · exact ht'
    · rw [hcount', hc, if_neg hip]

theorem QInv_poll (s : QState) (i : ℕ) (h : QInv s) : QInv (s.poll i) := by
  obtain ⟨hc, hm, ht⟩ := h
  unfold QState.poll
  cases hget : s.tasks.get? i with
  | none => exact ⟨hc, hm, ht⟩
  | some t =>
    dsimp only
    by_cases hpc : t.pc = .polling
    · rw [if_pos hpc]
      have hpt : pExec t = false := by rw [pExec, hpc]; rfl
      by_cases hb : s.movements.contains t.id
      · rw [hb]
        simp only [Bool.not_true, Bool.false_eq_true, if_false]
        by_cases hr : s.movementReady t.id = true
        · rw [if_pos hr]
          have hip : s.inProgress = false := by
            have h2 := hr
            simp [QState.movementReady] at h2
            exact h2.1
          exact QInv_beginMovement s i t hget hpc hip hm ht (by rw [hc, hip]; rfl)
        · rw [if_neg hr]; exact ⟨hc, hm, ht⟩
      · rw [Bool.not_eq_true] at hb
        rw [hb]
        simp only [Bool.not_false, if_true]
        refine ⟨?_, hm, ?_⟩
        · dsimp only
          rw [countP_set_stay s.tasks i t { t with pc := .doneFalse } hget hpt (by rfl), hc]
        · intro u hu
          rcases List.mem_or_eq_of_mem_set hu with hh | hh
          · exact ht u hh
          · rw [hh]; exact ht t (List.get?_mem hget)
    · rw [if_neg hpc]; exact ⟨hc, hm, ht⟩

theorem QInv_tick (s : QState) (i : ℕ) (h : QInv s) : QInv (s.tick i) := by
  obtain ⟨hc, hm, ht⟩ := h
  unfold QState.tick
  cases hget : s.tasks.get? i with
  | none => exact ⟨hc, hm, ht⟩
  | some t =>
    dsimp only
    have htid : t.id < s.nextId := ht t (List.get?_mem hget)
    cases hpc : t.pc with
    | executing k =>
      have hpt : pExec t = true := by rw [pExec, hpc]; rfl
      have hpos : 0 < s.tasks.countP pExec := by
        rw [List.countP_pos]
        exact ⟨t, List.get?_mem hget, hpt⟩
      have hip : s.inProgress = true := by
        by_contra hcon
        rw [Bool.not_eq_true] at hcon
        rw [hcon] at hc
        simp only [Bool.false_eq_true, if_false] at hc
        omega
      have hone : s.tasks.countP pExec = 1 := by rw [hc, hip]; rfl
      by_cases hb : s.movements.contains t.id
      · rw [hb]
        simp only [Bool.not_true, Bool.false_eq_true, if_false]
        by_cases hk : k + 1 ≥ t.sc
        · rw [if_pos hk]
          refine ⟨?_, ?_, ?_⟩
          · dsimp only
            simp only [Bool.false_eq_true, if_false]
            have := countP_set_down s.tasks i t { t with pc := .doneTrue } hget hpt (by rfl)
            omega
          · intro id hid; exact hm id (List.mem_of_mem_erase hid)
          · intro u hu
            rcases List.mem_or_eq_of_mem_set hu with hh | hh
            · exact ht u hh
            · rw [hh]; exact htid
        · rw [if_neg hk]
          refine ⟨?_, hm, ?_⟩
          · dsimp only
            rw [countP_set_stay' s.tasks i t { t with pc := .executing (k + 1) } hget hpt (by rfl), hc]
          · intro u hu
            rcases List.mem_or_eq_of_mem_set hu with hh | hh
            · exact ht u hh
            · rw [hh]; exact htid
      · rw [Bool.not_eq_true] at hb
        rw [hb]
        simp only [Bool.not_false, if_true]
        refine ⟨?_, ?_, ?_⟩
        · dsimp only
          simp only [Bool.false_eq_true, if_false]
          have := countP_set_down s.tasks i t { t with pc := .doneFalse } hget hpt (by rfl)
          omega
        · intro id hid; exact hm id (List.mem_of_mem_erase hid)
        · intro u hu
          rcases List.mem_or_eq_of_mem_set hu with hh | hh
          · exact ht u hh
          · rw [hh]; exact htid
    | polling => exact ⟨hc, hm, ht⟩
    | doneTrue => exact ⟨hc, hm, ht⟩
    | doneFalse => exact ⟨hc, hm, ht⟩

theorem QInv_stop (s : QState) (h : QInv s) : QInv s.stop := by
  refine ⟨h.1, ?_, h.2.2⟩
  intro id hid
  cases hid

theorem QInv_step (s s' : QState) (hst : QStep s s') (h : QInv s) : QInv s' := by
  cases hst with
  | submit sc => exact QInv_submit s sc h
  | poll i => exact QInv_poll s i h
  | tick i => exact QInv_tick s i h
  | stop => exact QInv_stop s h

theorem qreach_inv (s : QState) (h : QReachable s) : QInv s := by
  induction h with
  | refl =>
    refine ⟨rfl, ?_, ?_⟩
    · intro id hid
      cases hid
    · intro t hst
      cases hst
  | tail _ hstep ih => exact QInv_step _ _ hstep ih

theorem beginMovement_movements (s : QState) (i : ℕ) (t : Task) :
    ∀ x ∈ (s.beginMovement i t).movements, x ∈ s.movements := by
  intro x hx
  unfold QState.beginMovement at hx
  split at hx
  · exact List.mem_of_mem_erase hx
  · exact hx

theorem beginMovement_nextId (s : QState) (i : ℕ) (t : Task) :
    (s.beginMovement i t).nextId = s.nextId := by
  unfold QState.beginMovement
  split <;> rfl

theorem poll_movements (s : QState) (i : ℕ) :
    ∀ x ∈ (s.poll i).movements, x ∈ s.movements := by
  intro x hx
  unfold QState.poll at hx
  cases hget : s.tasks.get? i with
  | none => rw [hget] at hx; exact hx
  | some t =>
    rw [hget] at hx
    dsimp only at hx
    split at hx
    · split at hx
      · exact hx
      · split at hx
        · exact beginMovement_movements _ _ _ x hx
        · exact hx
    · exact hx

theorem poll_nextId (s : QState) (i : ℕ) : (s.poll i).nextId = s.nextId := by
  unfold QState.poll
  cases hget : s.tasks.get? i with
  | none => rfl
  | some t =>
    dsimp only
    split
    · split
      · rfl
      · split
        · exact beginMovement_nextId _ _ _
        · rfl
    · rfl

theorem tick_movements (s : QState) (i : ℕ) :
    ∀ x ∈ (s.tick i).movements, x ∈ s.movements := by
  intro x hx
  unfold QState.tick at hx
  cases hget : s.tasks.get? i with
  | none => rw [hget] at hx; exact hx
  | some t =>
    rw [hget] at hx
    dsimp only at hx
    split at hx
    · split at hx
      · exact List.mem_of_mem_erase hx
      · split at hx
        · exact List.mem_of_mem_erase hx
        · exact hx
    · exact hx

theorem tick_nextId (s : QState) (i : ℕ) : (s.tick i).nextId = s.nextId := by
  unfold QState.tick
  cases hget : s.tasks.get? i with
  | none => rfl
  | some t =>
    dsimp only
    split
    · split
      · rfl
      · split <;> rfl
    · rfl

theorem submit_movements (s : QState) (sc : ℕ) :
    ∀ x ∈ (s.submit sc).movements, x ∈ s.movements ∨ x = s.nextId := by
  intro x hx
  unfold QState.submit at hx
  have hsplit : x ∈ s.movements ++ [s.nextId] → x ∈ s.movements ∨ x = s.nextId := by
    intro h
    rcases List.mem_append.mp h with h | h
    · exact Or.inl h
    · simp at h; exact Or.inr h
  split at hx
  · exact hsplit hx
  · exact hsplit (beginMovement_movements _ _ _ x hx)

theorem submit_nextId (s : QState) (sc : ℕ) : (s.submit sc).nextId = s.nextId + 1 := by
  unfold QState.submit
  split
  · rfl
  · rw [beginMovement_nextId]

theorem QStep_nextId_mono (s s' : QState) (hst : QStep s s') : s.nextId ≤ s'.nextId := by
  cases hst with
  | submit sc => rw [submit_nextId]; omega
  | poll i => rw [poll_nextId]
  | tick i => rw [tick_nextId]
  | stop => exact le_refl _

/-- An id below `#nextMovementId` that is not in `#movements` can never come
back: fresh ids are always strictly larger. -/
theorem QStep_removed (s s' : QState) (hst : QStep s s') (id : ℕ)
    (hlt : id < s.nextId) (hnm : id ∉ s.movements) :
    id < s'.nextId ∧ id ∉ s'.movements := by
  refine ⟨lt_of_lt_of_le hlt (QStep_nextId_mono s s' hst), ?_⟩
  intro hmem
  cases hst with
  | submit sc =>
    rcases submit_movements s sc id hmem with h | h
    · exact hnm h
    · omega
  | poll i => exact hnm (poll_movements s i id hmem)
  | tick i => exact hnm (tick_movements s i id hmem)
  | stop => cases hmem

theorem removed_forever (s w : QState) (hw : Relation.ReflTransGen QStep s w)
    (id : ℕ) (hlt : id < s.nextId) (hnm : id ∉ s.movements) :
    id ∉ w.movements ∧ id < w.nextId := by
  induction hw with
  | refl => exact ⟨hnm, hlt⟩
  | tail _ hstep ih =>
    have h := QStep_removed _ _ hstep id ih.2 ih.1
    exact ⟨h.2, h.1⟩

/-- C1: at most one movement is ever Executing.  In every reachable state the
number of `move()` tasks inside `#performMovements` is at most one, and a
task sleeping in the admission polling loop transitions into
`#performMovements` only at a wake-up where `#movementInProgress` is `false`
and its id is the head (oldest surviving id) of the `#movements` set. -/
theorem c1_at_most_one_executing (s : QState) (hs : QReachable s) :
    s.tasks.countP pExec ≤ 1
    ∧ (∀ i t u, s.tasks.get? i = some t → t.pc = .polling →
        (s.poll i).tasks.get? i = some u → u.pc.isExecuting = true →
        s.inProgress = false ∧ s.movements.head? = some t.id) := by
  obtain ⟨hc, -, -⟩ := qreach_inv s hs
  constructor
  · rw [hc]; split <;> omega
  · intro i t u hget hpc hgu hexec
    unfold QState.poll at hgu
    rw [hget] at hgu
    dsimp only at hgu
    rw [if_pos hpc] at hgu
    by_cases hb : s.movements.contains t.id
    · rw [hb] at hgu
      simp only [Bool.not_true, Bool.false_eq_true, if_false] at hgu
      by_cases hr : s.movementReady t.id = true
      · have h2 := hr
        simp [QState.movementReady] at h2
        exact ⟨h2.1, h2.2⟩
      · rw [if_neg hr] at hgu
        have hut : u = t := by
          rw [hget] at hgu
          exact (Option.some.inj hgu).symm
        rw [hut, hpc] at hexec
        exact absurd hexec (by simp [TaskPc.isExecuting])
    · rw [Bool.not_eq_true] at hb
      rw [hb] at hgu
      simp only [Bool.not_false, if_true] at hgu
      rw [get?_set_self s.tasks i t { t with pc := .doneFalse } hget] at hgu
      have hut := Option.some.inj hgu
      rw [← hut] at hexec
      exact absurd hexec (by simp [TaskPc.isExecuting])

/-- C1 witness: after two concurrent submissions from a fresh instance (the
first executing, the second polling), at most one task is Executing. -/
theorem c1_at_most_one_executing_witness :
    ((QState.init.submit 5).submit 3).tasks.countP pExec ≤ 1 :=
  (c1_at_most_one_executing ((QState.init.submit 5).submit 3)
    (Relation.ReflTransGen.tail (Relation.ReflTransGen.single (QStep.submit QState.init 5))
      (QStep.submit (QState.init.submit 5) 3))).1

/-- C2: `stop()` clears `#movements`, and a cleared id never reappears (fresh
ids are strictly increasing).  Hence, in every state reachable after the
`stop()`, each task that was alive at the `stop()` finds its id gone: a
polling task's very next wake-up resolves its promise with `false`, and an
executing task's next tick boundary does the same — cancellation is reported
by `return false`, never by a rejection (the model's only outcomes are
`doneTrue`/`doneFalse`; the source's reject path replays exceptions from
`#performMovements`, which the cancellation paths never throw). -/
theorem c2_stop_resolves_false (s w : QState) (hs : QReachable s)
    (hw : Relation.ReflTransGen QStep s.stop w) (t : Task) (ht : t ∈ s.tasks) :
    t.id ∉ w.movements
    ∧ (∀ i u, w.tasks.get? i = some u → u.id = t.id → u.pc = .polling →
        (w.poll i).tasks.get? i = some { u with pc := .doneFalse })
    ∧ (∀ i u k, w.tasks.get? i = some u → u.id = t.id → u.pc = .executing k →
        (w.tick i).tasks.get? i = some { u with pc := .doneFalse }) := by
  obtain ⟨-, -, htasks⟩ := qreach_inv s hs
  have hlt : t.id < s.stop.nextId := htasks t ht
  have hnm : t.id ∉ s.stop.movements := by
    intro hmem
    cases hmem
  obtain ⟨hnmw, -⟩ := removed_forever s.stop w hw t.id hlt hnm
  have hcontains : ∀ u : Task, u.id = t.id → w.movements.contains u.id = false := by
    intro u hid
    rw [hid]
    by_contra hcc
    rw [Bool.not_eq_false] at hcc
    exact hnmw (List.mem_of_elem_eq_true hcc)
  refine ⟨hnmw, ?_, ?_⟩
  · intro i u hgu hid hpc
    unfold QState.poll
    rw [hgu]
    dsimp only
    rw [if_pos hpc, hcontains u hid]
    simp only [Bool.not_false, if_true]
    exact get?_set_self w.tasks i u { u with pc := .doneFalse } hgu
  · intro i u k hgu hid hpc
    unfold QState.tick
    rw [hgu]
    dsimp only
    rw [hpc]
    rw [hcontains u hid]
    simp only [Bool.not_false, if_true]
    exact get?_set_self w.tasks i u { u with pc := .doneFalse } hgu

/-- C2 witness: submit a movement (it starts executing), call `stop()`, let a
new movement be submitted afterwards — the stopped movement's id 1 is still
gone from the queue. -/
theorem c2_stop_resolves_false_witness :
    1 ∉ ((QState.init.submit 5).stop.submit 2).movements :=
  (c2_stop_resolves_false (QState.init.submit 5) ((QState.init.submit 5).stop.submit 2)
    (Relation.ReflTransGen.single (QStep.submit QState.init 5))
    (Relation.ReflTransGen.single (QStep.submit (QState.init.submit 5).stop 2))
    ⟨1, 5, .executing 0⟩ (by decide)).1
end Ayva
